import Mathlib

/-!
Shallow embedding of the DS1307_PicoLib driver sources
(src/DS1307/I2C_Driver.c, src/DS1307/DS1307.c and their headers)
together with proofs about the embedded code.

Machine integers are modelled as `Nat` with explicit `% 2^32` (written as the
literal 4294967296) or `% 256` where the C code's fixed-width arithmetic can
wrap.  The external bus transceiver (pico-sdk `i2c_write_blocking` /
`i2c_read_blocking`) is modelled as an oracle that says, for every physical
attempt, whether the device acknowledged it, and which byte a successful read
delivers; each attempt is numbered globally in the order it is made.
-/

namespace DS1307

/-! ## Constants from src/DS1307/I2C_Driver.h and src/DS1307/include/DS1307.h -/

def DS1307_I2C_ADDRESS : Nat := 0x68

def STATUS_SUCCESS : Nat := 0

def MPU6050_REGISTER_I2C_READ_FAIL : Nat := 0xFF

def CLK_SYS_88NS_IN_CYCLES : Nat := 11

def I2C_FAST_MODE : Nat := 400000

-- local constants of I2C_Register_Read / I2C_Register_Write in I2C_Driver.c
def maxRetries : Nat := 5

def retryDelayUs : Nat := 5

-- include/DS1307.h
def BCD_TO_DEC : Bool := false

def DEC_TO_BCD : Bool := true

def LOWER_NIBBLE_MASK : Nat := 0x0F

/-! ## BCD codec -/

/-- Modelled from the spec: the body of `ConvertBCD` is not among the source
files (only its declaration `uint8_t ConvertBCD(uint16_t, bool)` appears in
src/DS1307/include/DS1307.h, together with the direction constants
`BCD_TO_DEC`/`DEC_TO_BCD` and `LOWER_NIBBLE_MASK`).  Spec section 4.4: `toBCD`
computes tens = value/10, ones = value%10 and packs `(tens<<4)|ones`;
`fromBCD` computes tens = packed>>4, ones = packed & 0x0F and returns
`tens*10+ones`. -/
def ConvertBCD (valueToConvert : Nat) (direction : Bool) : Nat :=
  if direction = DEC_TO_BCD then
    ((valueToConvert / 10) <<< 4) ||| (valueToConvert % 10)
  else
    (valueToConvert >>> 4) * 10 + (valueToConvert &&& LOWER_NIBBLE_MASK)

/-! ## Bus timing computation (I2C_Initialize, src/DS1307/I2C_Driver.c) -/

-- uint32_t period_SCL = (clockFreq + (baudrate/2))/baudrate;
def period_SCL (clockFreq baudrate : Nat) : Nat :=
  ((clockFreq + baudrate / 2) % 4294967296) / baudrate

-- uint32_t lcnt = (period_SCL * 3/5);
def lcnt (clockFreq baudrate : Nat) : Nat :=
  period_SCL clockFreq baudrate * 3 % 4294967296 / 5

-- uint32_t hcnt = period_SCL - lcnt;  (uint32 subtraction, i.e. wrap mod 2^32)
def hcnt (clockFreq baudrate : Nat) : Nat :=
  (period_SCL clockFreq baudrate + (4294967296 - lcnt clockFreq baudrate)) % 4294967296

/-! RP2040 / DW_apb_i2c register-field constants used by I2C_Initialize
(values from the pico-sdk header hardware/regs/i2c.h). -/

def I2C_IC_CON_MASTER_MODE_BITS : Nat := 0x1

def I2C_IC_CON_IC_SLAVE_DISABLE_BITS : Nat := 0x40

def I2C_IC_CON_SPEED_VALUE_FAST : Nat := 0x2

def I2C_IC_CON_SPEED_LSB : Nat := 1

def I2C_IC_CON_IC_10BITADDR_MASTER_VALUE_ADDR_7BITS : Nat := 0x0

def I2C_IC_CON_IC_RESTART_EN_BITS : Nat := 0x20

def I2C_IC_CON_TX_EMPTY_CTRL_VALUE_DISABLED : Nat := 0x0

def I2C_IC_CON_RX_FIFO_FULL_HLD_CTRL_VALUE_DISABLED : Nat := 0x0

/-- Configuration registers of the I2C0 controller touched by
`I2C_Initialize`. -/
inductive CfgReg where
  | enable
  | con
  | fs_scl_hcnt
  | fs_scl_lcnt
  | fs_spklen
deriving DecidableEq

/-- The sequence of memory-mapped register writes performed by
`I2C_Initialize(baudrate)` in src/DS1307/I2C_Driver.c, in program order.
`clockFreq` is the value returned by `clock_get_hz(clk_sys)`. -/
def I2C_Initialize (clockFreq baudrate : Nat) : List (CfgReg × Nat) :=
  [ (CfgReg.enable, 0),
    (CfgReg.con,
      (I2C_IC_CON_MASTER_MODE_BITS ||| I2C_IC_CON_IC_SLAVE_DISABLE_BITS) |||
        (I2C_IC_CON_SPEED_VALUE_FAST <<< I2C_IC_CON_SPEED_LSB) |||
        I2C_IC_CON_IC_10BITADDR_MASTER_VALUE_ADDR_7BITS |||
        I2C_IC_CON_IC_RESTART_EN_BITS |||
        I2C_IC_CON_TX_EMPTY_CTRL_VALUE_DISABLED |||
        I2C_IC_CON_RX_FIFO_FULL_HLD_CTRL_VALUE_DISABLED),
    (CfgReg.fs_scl_hcnt, hcnt clockFreq baudrate),
    (CfgReg.fs_scl_lcnt, lcnt clockFreq baudrate),
    (CfgReg.fs_spklen, CLK_SYS_88NS_IN_CYCLES),
    (CfgReg.enable, 1) ]

/-- Value of register `r` after executing a list of register writes, starting
from the value `v0`. -/
def regAfter (r : CfgReg) (v0 : Nat) : List (CfgReg × Nat) → Nat
  | [] => v0
  | w :: rest => regAfter r (if w.1 = r then w.2 else v0) rest

/-- Scans a write sequence and checks that every write to a configuration
register other than `enable` happens while the tracked value of the `enable`
register is 0.  `e` is the current value of the `enable` register. -/
def enableOffDuringCfg : Nat → List (CfgReg × Nat) → Bool
  | _, [] => true
  | e, w :: rest =>
    if w.1 = CfgReg.enable then enableOffDuringCfg w.2 rest
    else decide (e = 0) && enableOffDuringCfg e rest

/-! ## Retry-bounded transaction executor (src/DS1307/I2C_Driver.c) -/

/-- One observable action on the external bus transceiver: a blocking write
of a byte sequence (`i2c_write_blocking`), a blocking read of `count` bytes
(`i2c_read_blocking`) or a `sleep_us` backoff.  `nostop` is the final
parameter of the pico-sdk calls: `true` holds the bus (no stop condition),
`false` issues a stop condition. -/
inductive BusEvent where
  | transmit (devAddr : Nat) (bytes : List Nat) (nostop : Bool)
  | receive (devAddr : Nat) (count : Nat) (nostop : Bool)
  | sleep (us : Nat)
deriving DecidableEq

/-- The external bus transceiver, modelled as an oracle over globally numbered
physical attempts: `ack n` tells whether the device acknowledged the n-th
attempt (write or read), `readData n` is the byte the n-th attempt delivers
when it is an acknowledged read. -/
structure Bus where
  ack : Nat → Bool
  readData : Nat → Nat

/-- One `while(!i2c_..._blocking(...)) { sleep_us(5); errorCount++;
if(errorCount > maxRetries) return FAIL; }` loop from I2C_Driver.c.
`att` is the bus action the loop body retries, `g` the global number of the
next attempt, `errorCount` the C loop counter.  Returns (acknowledged?, next
global attempt number, trace of bus events).  `fuel` only bounds the
recursion; called with `fuel = maxRetries + 1` the fuel-exhaustion branch is
unreachable because the `errorCount > maxRetries` exit fires first. -/
def I2C_phase (att : BusEvent) (bus : Bus) : Nat → Nat → Nat → Bool × Nat × List BusEvent
  | g, _, 0 => (false, g, [])
  | g, errorCount, fuel + 1 =>
    if bus.ack g then (true, g + 1, [att])
    else if errorCount + 1 > maxRetries then
      (false, g + 1, [att, BusEvent.sleep retryDelayUs])
    else
      let rest := I2C_phase att bus (g + 1) (errorCount + 1) fuel
      (rest.1, rest.2.1, att :: BusEvent.sleep retryDelayUs :: rest.2.2)

/-- uint8_t I2C_Register_Read(uint8_t registerAddress): a write phase
transmitting the single register-address byte with the bus held (no stop),
then, only if it was acknowledged, a read phase of exactly one byte with a
stop condition; either phase exhausting its retries returns
MPU6050_REGISTER_I2C_READ_FAIL.  Returns (result byte, next global attempt
number, trace). -/
def I2C_Register_Read (bus : Bus) (registerAddress g : Nat) :
    Nat × Nat × List BusEvent :=
  let reg_address := registerAddress % 256
  let w := I2C_phase (BusEvent.transmit DS1307_I2C_ADDRESS [reg_address] true)
      bus g 0 (maxRetries + 1)
  if w.1 = false then
    (MPU6050_REGISTER_I2C_READ_FAIL, w.2.1, w.2.2)
  else
    let r := I2C_phase (BusEvent.receive DS1307_I2C_ADDRESS 1 false)
        bus w.2.1 0 (maxRetries + 1)
    if r.1 = false then
      (MPU6050_REGISTER_I2C_READ_FAIL, r.2.1, w.2.2 ++ r.2.2)
    else
      (bus.readData (r.2.1 - 1) % 256, r.2.1, w.2.2 ++ r.2.2)

/-- uint8_t I2C_Register_Write(uint8_t registerAddress, uint8_t
registerValue): a single phase transmitting the two-byte sequence
{registerAddress, registerValue} with a stop condition; returns
STATUS_SUCCESS on acknowledgement, MPU6050_REGISTER_I2C_READ_FAIL after
exhausting the retries. -/
def I2C_Register_Write (bus : Bus) (registerAddress registerValue g : Nat) :
    Nat × Nat × List BusEvent :=
  let outputData_Reset := [registerAddress % 256, registerValue % 256]
  let w := I2C_phase (BusEvent.transmit DS1307_I2C_ADDRESS outputData_Reset false)
      bus g 0 (maxRetries + 1)
  if w.1 = false then (MPU6050_REGISTER_I2C_READ_FAIL, w.2.1, w.2.2)
  else (STATUS_SUCCESS, w.2.1, w.2.2)

/-- static uint8_t Enable_DS1307_Oscillator() from src/DS1307/DS1307.c lines
182-209: first reads register 0x07 (for the debug print, result discarded),
then retries a write transmitting outputData_Reset = {0x07, 0x00} with a stop
condition; STATUS_SUCCESS once acknowledged, MPU6050_REGISTER_I2C_READ_FAIL
after exhausting the retries. -/
def Enable_DS1307_Oscillator (bus : Bus) (g : Nat) : Nat × Nat × List BusEvent :=
  let rd := I2C_Register_Read bus 0x07 g
  let outputData_Reset := [0x07, 0x00]
  let w := I2C_phase (BusEvent.transmit DS1307_I2C_ADDRESS outputData_Reset false)
      bus rd.2.1 0 (maxRetries + 1)
  if w.1 = false then (MPU6050_REGISTER_I2C_READ_FAIL, w.2.1, rd.2.2 ++ w.2.2)
  else (STATUS_SUCCESS, w.2.1, rd.2.2 ++ w.2.2)

/-! ## Trace observations -/

def isAttempt : BusEvent → Bool
  | BusEvent.sleep _ => false
  | _ => true

def isReceive : BusEvent → Bool
  | BusEvent.receive _ _ _ => true
  | _ => false

def countP (p : BusEvent → Bool) (t : List BusEvent) : Nat := (t.filter p).length

/-- Number of physical transmit/receive attempts recorded in a trace. -/
def countAttempts (t : List BusEvent) : Nat := countP isAttempt t

/-- Number of read (receive) attempts recorded in a trace. -/
def countReceives (t : List BusEvent) : Nat := countP isReceive t

/-- Every attempt in the trace other than the first is immediately preceded
by a `sleep retryDelayUs` backoff. -/
def retriesPrecededBySleep : List BusEvent → Bool
  | [] => true
  | [_] => true
  | a :: b :: rest =>
    (!(isAttempt b) || decide (a = BusEvent.sleep retryDelayUs)) &&
      retriesPrecededBySleep (b :: rest)

/-- Trace of a phase whose first `j` attempts are refused and whose attempt
`j` is acknowledged. -/
def okTrace (att : BusEvent) : Nat → List BusEvent
  | 0 => [att]
  | j + 1 => att :: BusEvent.sleep retryDelayUs :: okTrace att j

/-- Trace of `n` refused attempts, each followed by the backoff sleep. -/
def failTrace (att : BusEvent) : Nat → List BusEvent
  | 0 => []
  | n + 1 => att :: BusEvent.sleep retryDelayUs :: failTrace att n

/-! ## Phase lemmas -/

/-- If the `j` attempts before attempt `g + j` are refused and attempt
`g + j` is acknowledged, the phase loop succeeds after `j + 1` attempts. -/
theorem I2C_phase_first_ack (att : BusEvent) (bus : Bus) :
    ∀ j g e fuel, j < fuel → e + j ≤ maxRetries →
      (∀ i, i < j → bus.ack (g + i) = false) → bus.ack (g + j) = true →
      I2C_phase att bus g e fuel = (true, g + j + 1, okTrace att j) := by
  intro j
  induction j with
  | zero =>
    intro g e fuel hf _ _ hack
    match fuel, hf with
    | fuel + 1, _ =>
      simp only [Nat.add_zero] at hack
      simp [I2C_phase, hack, okTrace]
  | succ j ih =>
    intro g e fuel hf he hmin hack
    match fuel, hf with
    | fuel + 1, hf =>
      have h0 : bus.ack g = false := by
        have := hmin 0 (Nat.succ_pos j)
        simpa using this
      have hgate : ¬ e + 1 > maxRetries := by
        simp only [maxRetries] at he ⊢
        omega
      have hrec : I2C_phase att bus (g + 1) (e + 1) fuel
          = (true, g + 1 + j + 1, okTrace att j) := by
        refine ih (g + 1) (e + 1) fuel (by omega) (by omega) ?_ ?_
        · intro i hi
          have := hmin (i + 1) (by omega)
          simpa [Nat.add_assoc, Nat.add_comm 1 i] using this
        · have : g + (j + 1) = g + 1 + j := by omega
          rw [← this]
          exact hack
      have harith : g + (j + 1) + 1 = g + 1 + j + 1 := by omega
      rw [harith]
      simp [I2C_phase, h0, hgate, hrec, okTrace]

/-- If attempts `g` through `g + n` are all refused and `errorCount + n`
equals `maxRetries`, the phase loop fails after those `n + 1` attempts. -/
theorem I2C_phase_exhaust (att : BusEvent) (bus : Bus) :
    ∀ n g e fuel, e + n = maxRetries → n < fuel →
      (∀ i, i ≤ n → bus.ack (g + i) = false) →
      I2C_phase att bus g e fuel = (false, g + n + 1, failTrace att (n + 1)) := by
  intro n
  induction n with
  | zero =>
    intro g e fuel he hf hall
    match fuel, hf with
    | fuel + 1, _ =>
      have h0 : bus.ack g = false := by simpa using hall 0 (Nat.le_refl 0)
      have hgate : e + 1 > maxRetries := by omega
      simp [I2C_phase, h0, hgate, failTrace]
  | succ n ih =>
    intro g e fuel he hf hall
    match fuel, hf with
    | fuel + 1, hf =>
      have h0 : bus.ack g = false := by simpa using hall 0 (Nat.zero_le _)
      have hgate : ¬ e + 1 > maxRetries := by
        simp only [maxRetries] at he ⊢
        omega
      have hrec : I2C_phase att bus (g + 1) (e + 1) fuel
          = (false, g + 1 + n + 1, failTrace att (n + 1)) := by
        refine ih (g + 1) (e + 1) fuel (by omega) (by omega) ?_
        intro i hi
        have := hall (i + 1) (by omega)
        simpa [Nat.add_assoc, Nat.add_comm 1 i] using this
      have harith : g + (n + 1) + 1 = g + 1 + n + 1 := by omega
      rw [harith]
      simp [I2C_phase, h0, hgate, hrec, failTrace]

/-- Every run of a phase with the source's fuel either succeeds at the first
acknowledged attempt `j ≤ maxRetries` or exhausts all `maxRetries + 1`
attempts and fails. -/
theorem I2C_phase_cases (att : BusEvent) (bus : Bus) (g : Nat) :
    (∃ j, j ≤ maxRetries ∧ (∀ i, i < j → bus.ack (g + i) = false) ∧
      bus.ack (g + j) = true ∧
      I2C_phase att bus g 0 (maxRetries + 1) = (true, g + j + 1, okTrace att j)) ∨
    ((∀ i, i ≤ maxRetries → bus.ack (g + i) = false) ∧
      I2C_phase att bus g 0 (maxRetries + 1)
        = (false, g + maxRetries + 1, failTrace att (maxRetries + 1))) := by
  by_cases hex : ∃ j, j ≤ maxRetries ∧ bus.ack (g + j) = true
  · left
    obtain ⟨j, hj, hja⟩ := hex
    have hP : ∃ j, bus.ack (g + j) = true := ⟨j, hja⟩
    have hj0a : bus.ack (g + Nat.find hP) = true := Nat.find_spec hP
    have hj0min : ∀ i, i < Nat.find hP → bus.ack (g + i) = false := by
      intro i hi
      have := Nat.find_min hP hi
      simpa using this
    have hj0le : Nat.find hP ≤ maxRetries := le_trans (Nat.find_min' hP hja) hj
    exact ⟨Nat.find hP, hj0le, hj0min, hj0a,
      I2C_phase_first_ack att bus (Nat.find hP) g 0 (maxRetries + 1)
        (by omega) (by omega) hj0min hj0a⟩
  · right
    push_neg at hex
    have hall : ∀ i, i ≤ maxRetries → bus.ack (g + i) = false := by
      intro i hi
      have := hex i hi
      simpa using this
    exact ⟨hall, I2C_phase_exhaust att bus maxRetries g 0 (maxRetries + 1)
      rfl (by omega) hall⟩

/-! ## Trace counting lemmas -/

theorem countP_append (p : BusEvent → Bool) (a b : List BusEvent) :
    countP p (a ++ b) = countP p a + countP p b := by
  simp [countP, List.filter_append]

theorem countP_okTrace_pos (p : BusEvent → Bool) (att : BusEvent)
    (hatt : p att = true) (hsleep : p (BusEvent.sleep retryDelayUs) = false) :
    ∀ j, countP p (okTrace att j) = j + 1 := by
  intro j
  induction j with
  | zero => simp [okTrace, countP, hatt]
  | succ j ih =>
    simp only [okTrace, countP, List.filter_cons, hatt, hsleep] at ih ⊢
    simp at ih ⊢
    omega

theorem countP_okTrace_zero (p : BusEvent → Bool) (att : BusEvent)
    (hatt : p att = false) (hsleep : p (BusEvent.sleep retryDelayUs) = false) :
    ∀ j, countP p (okTrace att j) = 0 := by
  intro j
  induction j with
  | zero => simp [okTrace, countP, hatt]
  | succ j ih =>
    simp only [okTrace, countP, List.filter_cons, hatt, hsleep] at ih ⊢
    simpa using ih

theorem countP_failTrace_pos (p : BusEvent → Bool) (att : BusEvent)
    (hatt : p att = true) (hsleep : p (BusEvent.sleep retryDelayUs) = false) :
    ∀ n, countP p (failTrace att n) = n := by
  intro n
  induction n with
  | zero => simp [failTrace, countP]
  | succ n ih =>
    simp only [failTrace, countP, List.filter_cons, hatt, hsleep] at ih ⊢
    simp at ih ⊢
    omega

theorem countP_failTrace_zero (p : BusEvent → Bool) (att : BusEvent)
    (hatt : p att = false) (hsleep : p (BusEvent.sleep retryDelayUs) = false) :
    ∀ n, countP p (failTrace att n) = 0 := by
  intro n
  induction n with
  | zero => simp [failTrace, countP]
  | succ n ih =>
    simp only [failTrace, countP, List.filter_cons, hatt, hsleep] at ih ⊢
    simpa using ih

theorem mem_okTrace (att : BusEvent) :
    ∀ j e, e ∈ okTrace att j → e = att ∨ e = BusEvent.sleep retryDelayUs := by
  intro j
  induction j with
  | zero =>
    intro e he
    simp [okTrace] at he
    exact Or.inl he
  | succ j ih =>
    intro e he
    simp only [okTrace, List.mem_cons] at he
    rcases he with h | h | h
    · exact Or.inl h
    · exact Or.inr h
    · exact ih e h

theorem mem_failTrace (att : BusEvent) :
    ∀ n e, e ∈ failTrace att n → e = att ∨ e = BusEvent.sleep retryDelayUs := by
  intro n
  induction n with
  | zero =>
    intro e he
    simp [failTrace] at he
  | succ n ih =>
    intro e he
    simp only [failTrace, List.mem_cons] at he
    rcases he with h | h | h
    · exact Or.inl h
    · exact Or.inr h
    · exact ih e h

theorem rps_okTrace (att : BusEvent) :
    ∀ j, retriesPrecededBySleep (okTrace att j) = true ∧
      retriesPrecededBySleep (BusEvent.sleep retryDelayUs :: okTrace att j) = true := by
  intro j
  induction j with
  | zero => simp [okTrace, retriesPrecededBySleep]
  | succ j ih =>
    have p1 : retriesPrecededBySleep
        (att :: BusEvent.sleep retryDelayUs :: okTrace att j) = true := by
      rw [retriesPrecededBySleep]
      simp [isAttempt, ih.2]
    refine ⟨p1, ?_⟩
    show retriesPrecededBySleep
        (BusEvent.sleep retryDelayUs :: att :: BusEvent.sleep retryDelayUs
          :: okTrace att j) = true
    rw [retriesPrecededBySleep]
    simp [p1]

theorem rps_failTrace (att : BusEvent) :
    ∀ n, retriesPrecededBySleep (failTrace att n) = true ∧
      retriesPrecededBySleep (BusEvent.sleep retryDelayUs :: failTrace att n) = true := by
  intro n
  induction n with
  | zero => simp [failTrace, retriesPrecededBySleep]
  | succ n ih =>
    have p1 : retriesPrecededBySleep
        (att :: BusEvent.sleep retryDelayUs :: failTrace att n) = true := by
      rw [retriesPrecededBySleep]
      simp [isAttempt, ih.2]
    refine ⟨p1, ?_⟩
    show retriesPrecededBySleep
        (BusEvent.sleep retryDelayUs :: att :: BusEvent.sleep retryDelayUs
          :: failTrace att n) = true
    rw [retriesPrecededBySleep]
    simp [p1]

/-! ## Operation run lemmas -/

/-- Complete case analysis of one `I2C_Register_Write` run. -/
theorem write_run (bus : Bus) (a v g : Nat) :
    (∃ j, j ≤ maxRetries ∧ (∀ i, i < j → bus.ack (g + i) = false) ∧
      bus.ack (g + j) = true ∧
      I2C_Register_Write bus a v g =
        (STATUS_SUCCESS, g + j + 1,
          okTrace (BusEvent.transmit DS1307_I2C_ADDRESS [a % 256, v % 256] false) j)) ∨
    ((∀ i, i ≤ maxRetries → bus.ack (g + i) = false) ∧
      I2C_Register_Write bus a v g =
        (MPU6050_REGISTER_I2C_READ_FAIL, g + maxRetries + 1,
          failTrace (BusEvent.transmit DS1307_I2C_ADDRESS [a % 256, v % 256] false)
            (maxRetries + 1))) := by
  rcases I2C_phase_cases
      (BusEvent.transmit DS1307_I2C_ADDRESS [a % 256, v % 256] false) bus g with
    ⟨j, hj, hmin, hja, heq⟩ | ⟨hall, heq⟩
  · exact Or.inl ⟨j, hj, hmin, hja, by simp [I2C_Register_Write, heq]⟩
  · exact Or.inr ⟨hall, by simp [I2C_Register_Write, heq]⟩

/-- Complete case analysis of one `I2C_Register_Read` run: the write phase
exhausts, or it succeeds and the read phase exhausts, or both succeed. -/
theorem read_run (bus : Bus) (a g : Nat) :
    ((∀ i, i ≤ maxRetries → bus.ack (g + i) = false) ∧
      I2C_Register_Read bus a g =
        (MPU6050_REGISTER_I2C_READ_FAIL, g + maxRetries + 1,
          failTrace (BusEvent.transmit DS1307_I2C_ADDRESS [a % 256] true)
            (maxRetries + 1))) ∨
    (∃ j, j ≤ maxRetries ∧ (∀ i, i < j → bus.ack (g + i) = false) ∧
      bus.ack (g + j) = true ∧
      (∀ i, i ≤ maxRetries → bus.ack (g + j + 1 + i) = false) ∧
      I2C_Register_Read bus a g =
        (MPU6050_REGISTER_I2C_READ_FAIL, g + j + 1 + maxRetries + 1,
          okTrace (BusEvent.transmit DS1307_I2C_ADDRESS [a % 256] true) j ++
            failTrace (BusEvent.receive DS1307_I2C_ADDRESS 1 false) (maxRetries + 1))) ∨
    (∃ j k, j ≤ maxRetries ∧ k ≤ maxRetries ∧
      (∀ i, i < j → bus.ack (g + i) = false) ∧ bus.ack (g + j) = true ∧
      (∀ i, i < k → bus.ack (g + j + 1 + i) = false) ∧ bus.ack (g + j + 1 + k) = true ∧
      I2C_Register_Read bus a g =
        (bus.readData (g + j + 1 + k) % 256, g + j + 1 + k + 1,
          okTrace (BusEvent.transmit DS1307_I2C_ADDRESS [a % 256] true) j ++
            okTrace (BusEvent.receive DS1307_I2C_ADDRESS 1 false) k)) := by
  rcases I2C_phase_cases
      (BusEvent.transmit DS1307_I2C_ADDRESS [a % 256] true) bus g with
    ⟨j, hj, hmin, hja, heqw⟩ | ⟨hall, heqw⟩
  · rcases I2C_phase_cases
        (BusEvent.receive DS1307_I2C_ADDRESS 1 false) bus (g + j + 1) with
      ⟨k, hk, hmin2, hka, heqr⟩ | ⟨hall2, heqr⟩
    · refine Or.inr (Or.inr ⟨j, k, hj, hk, hmin, hja, hmin2, hka, ?_⟩)
      simp [I2C_Register_Read, heqw, heqr]
    · refine Or.inr (Or.inl ⟨j, hj, hmin, hja, hall2, ?_⟩)
      simp [I2C_Register_Read, heqw, heqr]
  · refine Or.inl ⟨hall, ?_⟩
    simp [I2C_Register_Read, heqw]

/-! ## Theorems: transaction executor claims -/

/-- C2: each phase of `I2C_Register_Read` and the single phase of
`I2C_Register_Write` makes at most 6 transmit/receive attempts, every retry
attempt is immediately preceded by a 5-microsecond sleep; a transceiver that
never acknowledges makes both operations return the failure value after
exactly 6 attempts of the (first) phase; and when the write phase of a read
succeeds on its first attempt and everything after it is refused, the read
phase still gets its own 6 attempts before the operation fails, because the
retry counter is reset between the two phases. -/
theorem retry_policy_bound (bus busN busR : Bus) (registerAddress registerValue g : Nat) :
    countAttempts (I2C_Register_Write bus registerAddress registerValue g).2.2 ≤ 6 ∧
    retriesPrecededBySleep
        (I2C_Register_Write bus registerAddress registerValue g).2.2 = true ∧
    (∃ wt rt, (I2C_Register_Read bus registerAddress g).2.2 = wt ++ rt ∧
      countAttempts wt ≤ 6 ∧ countAttempts rt ≤ 6 ∧
      retriesPrecededBySleep wt = true ∧ retriesPrecededBySleep rt = true) ∧
    ((∀ n, busN.ack n = false) →
      (I2C_Register_Write busN registerAddress registerValue g).1
          = MPU6050_REGISTER_I2C_READ_FAIL ∧
      countAttempts (I2C_Register_Write busN registerAddress registerValue g).2.2 = 6 ∧
      (I2C_Register_Read busN registerAddress g).1 = MPU6050_REGISTER_I2C_READ_FAIL ∧
      countAttempts (I2C_Register_Read busN registerAddress g).2.2 = 6) ∧
    (busR.ack g = true → (∀ n, g < n → busR.ack n = false) →
      (I2C_Register_Read busR registerAddress g).1 = MPU6050_REGISTER_I2C_READ_FAIL ∧
      countReceives (I2C_Register_Read busR registerAddress g).2.2 = 6) := by
  refine ⟨?_, ?_, ?_, ?_, ?_⟩
  · rcases write_run bus registerAddress registerValue g with
      ⟨j, hj, _, _, heq⟩ | ⟨_, heq⟩ <;> rw [heq]
    · have hc := countP_okTrace_pos isAttempt
        (BusEvent.transmit DS1307_I2C_ADDRESS
          [registerAddress % 256, registerValue % 256] false) rfl rfl j
      simp only [countAttempts, maxRetries] at hc hj ⊢
      rw [hc]
      omega
    · have hc := countP_failTrace_pos isAttempt
        (BusEvent.transmit DS1307_I2C_ADDRESS
          [registerAddress % 256, registerValue % 256] false) rfl rfl (maxRetries + 1)
      simp only [countAttempts, maxRetries] at hc ⊢
      rw [hc]
  · rcases write_run bus registerAddress registerValue g with
      ⟨j, _, _, _, heq⟩ | ⟨_, heq⟩ <;> rw [heq]
    · exact (rps_okTrace _ j).1
    · exact (rps_failTrace _ (maxRetries + 1)).1
  · rcases read_run bus registerAddress g with
      ⟨_, heq⟩ | ⟨j, hj, _, _, _, heq⟩ | ⟨j, k, hj, hk, _, _, _, _, heq⟩ <;> rw [heq]
    · refine ⟨failTrace (BusEvent.transmit DS1307_I2C_ADDRESS
          [registerAddress % 256] true) (maxRetries + 1), [], by simp, ?_, ?_, ?_, ?_⟩
      · have hc := countP_failTrace_pos isAttempt
          (BusEvent.transmit DS1307_I2C_ADDRESS [registerAddress % 256] true)
          rfl rfl (maxRetries + 1)
        simp only [countAttempts, maxRetries] at hc ⊢
        rw [hc]
      · simp [countAttempts, countP]
      · exact (rps_failTrace _ (maxRetries + 1)).1
      · rfl
    · refine ⟨okTrace (BusEvent.transmit DS1307_I2C_ADDRESS
            [registerAddress % 256] true) j,
        failTrace (BusEvent.receive DS1307_I2C_ADDRESS 1 false) (maxRetries + 1),
        rfl, ?_, ?_, ?_, ?_⟩
      · have hc := countP_okTrace_pos isAttempt
          (BusEvent.transmit DS1307_I2C_ADDRESS [registerAddress % 256] true) rfl rfl j
        simp only [countAttempts, maxRetries] at hc hj ⊢
        rw [hc]
        omega
      · have hc := countP_failTrace_pos isAttempt
          (BusEvent.receive DS1307_I2C_ADDRESS 1 false) rfl rfl (maxRetries + 1)
        simp only [countAttempts, maxRetries] at hc ⊢
        rw [hc]
      · exact (rps_okTrace _ j).1
      · exact (rps_failTrace _ (maxRetries + 1)).1
    · refine ⟨okTrace (BusEvent.transmit DS1307_I2C_ADDRESS
            [registerAddress % 256] true) j,
        okTrace (BusEvent.receive DS1307_I2C_ADDRESS 1 false) k,
        rfl, ?_, ?_, ?_, ?_⟩
      · have hc := countP_okTrace_pos isAttempt
          (BusEvent.transmit DS1307_I2C_ADDRESS [registerAddress % 256] true) rfl rfl j
        simp only [countAttempts, maxRetries] at hc hj ⊢
        rw [hc]
        omega
      · have hc := countP_okTrace_pos isAttempt
          (BusEvent.receive DS1307_I2C_ADDRESS 1 false) rfl rfl k
        simp only [countAttempts, maxRetries] at hc hk ⊢
        rw [hc]
        omega
      · exact (rps_okTrace _ j).1
      · exact (rps_okTrace _ k).1
  · intro hN
    have hwfail : ∀ x, busN.ack x = false := hN
    rcases write_run busN registerAddress registerValue g with
      ⟨j, _, _, hja, _⟩ | ⟨_, heqw⟩
    · rw [hwfail] at hja
      cases hja
    rcases read_run busN registerAddress g with
      ⟨_, heqr⟩ | ⟨j, _, _, hja, _, _⟩ | ⟨j, k, _, _, _, hja, _, _, _⟩
    · refine ⟨by rw [heqw], ?_, by rw [heqr], ?_⟩
      · rw [heqw]
        have hc := countP_failTrace_pos isAttempt
          (BusEvent.transmit DS1307_I2C_ADDRESS
            [registerAddress % 256, registerValue % 256] false) rfl rfl (maxRetries + 1)
        simp only [countAttempts, maxRetries] at hc ⊢
        rw [hc]
      · rw [heqr]
        have hc := countP_failTrace_pos isAttempt
          (BusEvent.transmit DS1307_I2C_ADDRESS [registerAddress % 256] true)
          rfl rfl (maxRetries + 1)
        simp only [countAttempts, maxRetries] at hc ⊢
        rw [hc]
    · rw [hwfail] at hja
      cases hja
    · rw [hwfail] at hja
      cases hja
  · intro hack hrest
    rcases read_run busR registerAddress g with
      ⟨hall, _⟩ | ⟨j, _, _, _, _, heq⟩ | ⟨j, k, _, _, _, _, _, hka, _⟩
    · have h0 := hall 0 (Nat.zero_le _)
      rw [Nat.add_zero, hack] at h0
      cases h0
    · refine ⟨by rw [heq], ?_⟩
      rw [heq]
      have hc1 := countP_okTrace_zero isReceive
        (BusEvent.transmit DS1307_I2C_ADDRESS [registerAddress % 256] true) rfl rfl j
      have hc2 := countP_failTrace_pos isReceive
        (BusEvent.receive DS1307_I2C_ADDRESS 1 false) rfl rfl (maxRetries + 1)
      simp only [countReceives, maxRetries] at hc1 hc2 ⊢
      rw [countP_append, hc1, hc2]
    · have := hrest (g + j + 1 + k) (by omega)
      rw [this] at hka
      cases hka

/-- Witness for `retry_policy_bound`: a transceiver that never acknowledges
makes both operations fail after 6 attempts, and one that acknowledges only
the very first attempt makes the read phase fail after its own 6 attempts. -/
theorem retry_policy_bound_witness :
    (I2C_Register_Write ⟨fun _ => false, fun _ => 0⟩ 1 2 0).1
        = MPU6050_REGISTER_I2C_READ_FAIL ∧
    countAttempts (I2C_Register_Write ⟨fun _ => false, fun _ => 0⟩ 1 2 0).2.2 = 6 ∧
    (I2C_Register_Read ⟨fun _ => false, fun _ => 0⟩ 1 0).1
        = MPU6050_REGISTER_I2C_READ_FAIL ∧
    countAttempts (I2C_Register_Read ⟨fun _ => false, fun _ => 0⟩ 1 0).2.2 = 6 ∧
    (I2C_Register_Read ⟨fun n => decide (n = 0), fun _ => 0⟩ 1 0).1
        = MPU6050_REGISTER_I2C_READ_FAIL ∧
    countReceives (I2C_Register_Read ⟨fun n => decide (n = 0), fun _ => 0⟩ 1 0).2.2
        = 6 := by
  have h := retry_policy_bound ⟨fun _ => false, fun _ => 0⟩ ⟨fun _ => false, fun _ => 0⟩
    ⟨fun n => decide (n = 0), fun _ => 0⟩ 1 2 0
  obtain ⟨_, _, _, h4, h5⟩ := h
  have h4x := h4 (fun n => rfl)
  have h5x := h5 (by decide) (fun n hn => by
    show decide (n = 0) = false
    simp
    omega)
  exact ⟨h4x.1, h4x.2.1, h4x.2.2.1, h4x.2.2.2, h5x.1, h5x.2⟩

theorem okTrace_head (att : BusEvent) : ∀ j, (okTrace att j).head? = some att := by
  intro j
  cases j <;> rfl

theorem failTrace_head (att : BusEvent) (n : Nat) :
    (failTrace att (n + 1)).head? = some att := rfl

/-- C3: `I2C_Register_Read` performs two phases in order: first a write phase
whose attempts all transmit exactly the single register-address byte with the
bus held (no stop condition), then a read phase whose attempts all read
exactly one byte with a stop condition; and if the write phase exhausts its
retries the operation returns the failure value without a single read-phase
attempt. -/
theorem read_two_phases (bus : Bus) (registerAddress g : Nat) :
    (∃ wt rt, (I2C_Register_Read bus registerAddress g).2.2 = wt ++ rt ∧
      wt.head? = some (BusEvent.transmit DS1307_I2C_ADDRESS
        [registerAddress % 256] true) ∧
      (∀ e ∈ wt, e = BusEvent.transmit DS1307_I2C_ADDRESS
          [registerAddress % 256] true ∨ e = BusEvent.sleep retryDelayUs) ∧
      (∀ e ∈ rt, e = BusEvent.receive DS1307_I2C_ADDRESS 1 false ∨
        e = BusEvent.sleep retryDelayUs)) ∧
    ((∀ i, i ≤ maxRetries → bus.ack (g + i) = false) →
      (I2C_Register_Read bus registerAddress g).1 = MPU6050_REGISTER_I2C_READ_FAIL ∧
      countReceives (I2C_Register_Read bus registerAddress g).2.2 = 0) := by
  constructor
  · rcases read_run bus registerAddress g with
      ⟨_, heq⟩ | ⟨j, _, _, _, _, heq⟩ | ⟨j, k, _, _, _, _, _, _, heq⟩ <;> rw [heq]
    · exact ⟨failTrace (BusEvent.transmit DS1307_I2C_ADDRESS
          [registerAddress % 256] true) (maxRetries + 1), [], by simp,
        failTrace_head _ maxRetries,
        fun e he => mem_failTrace _ _ e he, by simp⟩
    · exact ⟨okTrace (BusEvent.transmit DS1307_I2C_ADDRESS
          [registerAddress % 256] true) j,
        failTrace (BusEvent.receive DS1307_I2C_ADDRESS 1 false) (maxRetries + 1),
        rfl, okTrace_head _ j,
        fun e he => mem_okTrace _ j e he, fun e he => mem_failTrace _ _ e he⟩
    · exact ⟨okTrace (BusEvent.transmit DS1307_I2C_ADDRESS
          [registerAddress % 256] true) j,
        okTrace (BusEvent.receive DS1307_I2C_ADDRESS 1 false) k,
        rfl, okTrace_head _ j,
        fun e he => mem_okTrace _ j e he, fun e he => mem_okTrace _ k e he⟩
  · intro hall
    rcases read_run bus registerAddress g with
      ⟨_, heq⟩ | ⟨j, hj, _, hja, _, _⟩ | ⟨j, k, hj, _, _, hja, _, _, _⟩
    · refine ⟨by rw [heq], ?_⟩
      rw [heq]
      have hc := countP_failTrace_zero isReceive
        (BusEvent.transmit DS1307_I2C_ADDRESS [registerAddress % 256] true)
        rfl rfl (maxRetries + 1)
      simp only [countReceives]
      rw [hc]
    · have := hall j hj
      rw [this] at hja
      cases hja
    · have := hall j hj
      rw [this] at hja
      cases hja

/-- Witness for `read_two_phases`: a transceiver that never acknowledges
makes the read fail with zero read-phase attempts. -/
theorem read_two_phases_witness :
    (I2C_Register_Read ⟨fun _ => false, fun _ => 0⟩ 7 0).1
        = MPU6050_REGISTER_I2C_READ_FAIL ∧
    countReceives (I2C_Register_Read ⟨fun _ => false, fun _ => 0⟩ 7 0).2.2 = 0 :=
  (read_two_phases ⟨fun _ => false, fun _ => 0⟩ 7 0).2 (fun i _ => rfl)

/-- C4: every attempt of `I2C_Register_Write` transmits exactly the two-byte
sequence {registerAddress, registerValue} with a stop condition, and for any
attempt index k with 1 <= k <= 6, a transceiver that refuses the first k-1
attempts and acknowledges the k-th makes the operation return STATUS_SUCCESS
after exactly k attempts. -/
theorem write_single_phase (bus : Bus) (registerAddress registerValue g k : Nat) :
    (∀ e ∈ (I2C_Register_Write bus registerAddress registerValue g).2.2,
      e = BusEvent.transmit DS1307_I2C_ADDRESS
          [registerAddress % 256, registerValue % 256] false ∨
      e = BusEvent.sleep retryDelayUs) ∧
    (1 ≤ k → k ≤ 6 →
      (∀ i, i < k - 1 → bus.ack (g + i) = false) → bus.ack (g + (k - 1)) = true →
      (I2C_Register_Write bus registerAddress registerValue g).1 = STATUS_SUCCESS ∧
      countAttempts (I2C_Register_Write bus registerAddress registerValue g).2.2
        = k) := by
  constructor
  · rcases write_run bus registerAddress registerValue g with
      ⟨j, _, _, _, heq⟩ | ⟨_, heq⟩ <;> rw [heq]
    · exact fun e he => mem_okTrace _ j e he
    · exact fun e he => mem_failTrace _ _ e he
  · intro hk1 hk6 hmin hack
    have hphase := I2C_phase_first_ack
      (BusEvent.transmit DS1307_I2C_ADDRESS
        [registerAddress % 256, registerValue % 256] false)
      bus (k - 1) g 0 (maxRetries + 1)
      (by simp only [maxRetries]; omega) (by simp only [maxRetries]; omega) hmin hack
    constructor
    · simp [I2C_Register_Write, hphase]
    · have hc := countP_okTrace_pos isAttempt
        (BusEvent.transmit DS1307_I2C_ADDRESS
          [registerAddress % 256, registerValue % 256] false) rfl rfl (k - 1)
      simp only [I2C_Register_Write, hphase, countAttempts]
      simp only [Bool.true_eq_false, if_false]
      simp only [hc]
      omega

/-- Witness for `write_single_phase`: a transceiver that acknowledges only
the 4th attempt still yields STATUS_SUCCESS, after exactly 4 attempts. -/
theorem write_single_phase_witness :
    (I2C_Register_Write ⟨fun n => decide (n = 3), fun _ => 0⟩ 0 0 0).1
        = STATUS_SUCCESS ∧
    countAttempts
      (I2C_Register_Write ⟨fun n => decide (n = 3), fun _ => 0⟩ 0 0 0).2.2 = 4 :=
  (write_single_phase ⟨fun n => decide (n = 3), fun _ => 0⟩ 0 0 0 4).2
    (by decide) (by decide) (by decide) (by decide)

/-- C10: `I2C_Register_Read` returns the same 8-bit sentinel
MPU6050_REGISTER_I2C_READ_FAIL = 0xFF for write-phase exhaustion, for
read-phase exhaustion, and for a successful read whose delivered byte is
0xFF, so the caller cannot distinguish the three outcomes from the returned
value. -/
theorem read_fail_indistinguishable (busW busR busV : Bus)
    (a1 a2 a3 g1 g2 g3 : Nat)
    (hW : ∀ i, i ≤ maxRetries → busW.ack (g1 + i) = false)
    (hR0 : busR.ack g2 = true) (hR : ∀ n, g2 < n → busR.ack n = false)
    (hV0 : busV.ack g3 = true) (hV1 : busV.ack (g3 + 1) = true)
    (hVd : busV.readData (g3 + 1) % 256 = 0xFF) :
    (I2C_Register_Read busW a1 g1).1 = MPU6050_REGISTER_I2C_READ_FAIL ∧
    (I2C_Register_Read busR a2 g2).1 = MPU6050_REGISTER_I2C_READ_FAIL ∧
    (I2C_Register_Read busV a3 g3).1 = MPU6050_REGISTER_I2C_READ_FAIL ∧
    MPU6050_REGISTER_I2C_READ_FAIL = 0xFF := by
  refine ⟨?_, ?_, ?_, rfl⟩
  · rcases read_run busW a1 g1 with
      ⟨_, heq⟩ | ⟨j, hj, _, hja, _, _⟩ | ⟨j, k, hj, _, _, hja, _, _, _⟩
    · rw [heq]
    · have := hW j hj
      rw [this] at hja
      cases hja
    · have := hW j hj
      rw [this] at hja
      cases hja
  · rcases read_run busR a2 g2 with
      ⟨hall, _⟩ | ⟨_, _, _, _, _, heq⟩ | ⟨j, k, _, _, _, _, _, hka, _⟩
    · have h0 := hall 0 (Nat.zero_le _)
      rw [Nat.add_zero, hR0] at h0
      cases h0
    · rw [heq]
    · have := hR (g2 + j + 1 + k) (by omega)
      rw [this] at hka
      cases hka
  · rcases read_run busV a3 g3 with
      ⟨hall, _⟩ | ⟨j, _, hmin, _, hall2, _⟩ | ⟨j, k, _, _, hminj, _, hmink, _, heq⟩
    · have h0 := hall 0 (Nat.zero_le _)
      rw [Nat.add_zero, hV0] at h0
      cases h0
    · have hj0 : j = 0 := by
        by_contra hne
        have := hmin 0 (Nat.pos_of_ne_zero hne)
        rw [Nat.add_zero, hV0] at this
        cases this
      subst hj0
      have := hall2 0 (Nat.zero_le _)
      simp only [Nat.add_zero] at this
      rw [hV1] at this
      cases this
    · have hj0 : j = 0 := by
        by_contra hne
        have := hminj 0 (Nat.pos_of_ne_zero hne)
        rw [Nat.add_zero, hV0] at this
        cases this
      subst hj0
      have hk0 : k = 0 := by
        by_contra hne
        have := hmink 0 (Nat.pos_of_ne_zero hne)
        simp only [Nat.add_zero] at this
        rw [hV1] at this
        cases this
      subst hk0
      simp [heq, MPU6050_REGISTER_I2C_READ_FAIL, hVd]

/-- Witness for `read_fail_indistinguishable` with three concrete
transceivers: one never acknowledging, one acknowledging only the first
attempt, one acknowledging everything and delivering the byte 0xFF. -/
theorem read_fail_indistinguishable_witness :
    (I2C_Register_Read ⟨fun _ => false, fun _ => 0⟩ 0 0).1
        = MPU6050_REGISTER_I2C_READ_FAIL ∧
    (I2C_Register_Read ⟨fun n => decide (n = 0), fun _ => 0⟩ 3 0).1
        = MPU6050_REGISTER_I2C_READ_FAIL ∧
    (I2C_Register_Read ⟨fun _ => true, fun _ => 0xFF⟩ 5 0).1
        = MPU6050_REGISTER_I2C_READ_FAIL ∧
    MPU6050_REGISTER_I2C_READ_FAIL = 0xFF :=
  read_fail_indistinguishable ⟨fun _ => false, fun _ => 0⟩
    ⟨fun n => decide (n = 0), fun _ => 0⟩ ⟨fun _ => true, fun _ => 0xFF⟩
    0 3 5 0 0 0 (fun i _ => rfl) (by decide)
    (fun n hn => by
      show decide (n = 0) = false
      simp
      omega)
    rfl rfl (by decide)

/-- C1: contrary to the claim, `Enable_DS1307_Oscillator` does not write 0x00
to register 0x00.  Run against a transceiver that acknowledges every attempt
it first reads register 0x07 and then transmits the byte pair {0x07, 0x00} -
a write of 0x00 to register address 0x07, the square-wave control register -
and it never transmits {0x00, 0x00}; the clock-halt bit in register 0x00 is
never touched.  It does return STATUS_SUCCESS once that write is
acknowledged. -/
theorem enable_oscillator_writes_reg7 :
    (Enable_DS1307_Oscillator ⟨fun _ => true, fun _ => 0⟩ 0).1 = STATUS_SUCCESS ∧
    (Enable_DS1307_Oscillator ⟨fun _ => true, fun _ => 0⟩ 0).2.2 =
      [BusEvent.transmit DS1307_I2C_ADDRESS [0x07] true,
       BusEvent.receive DS1307_I2C_ADDRESS 1 false,
       BusEvent.transmit DS1307_I2C_ADDRESS [0x07, 0x00] false] ∧
    BusEvent.transmit DS1307_I2C_ADDRESS [0x00, 0x00] false ∉
      (Enable_DS1307_Oscillator ⟨fun _ => true, fun _ => 0⟩ 0).2.2 := by
  refine ⟨by decide, by decide, by decide⟩

/-! ## Theorems: timing and initialization claims -/

/-- C9: for every value v in [0, 99], converting v from decimal to BCD and
converting the result back from BCD to decimal yields v again. -/
theorem convertBCD_roundTrip : ∀ v : Nat, v ≤ 99 →
    ConvertBCD (ConvertBCD v DEC_TO_BCD) BCD_TO_DEC = v := by decide

theorem convertBCD_roundTrip_witness :
    45 ≤ 99 ∧ ConvertBCD (ConvertBCD 45 DEC_TO_BCD) BCD_TO_DEC = 45 :=
  ⟨by decide, convertBCD_roundTrip 45 (by decide)⟩

/-- C5: for every systemClockHz and targetBusHz > 0 in u32 range, the timing
computation produces totalPeriod = (systemClockHz + targetBusHz/2) /
targetBusHz (u32 addition wrapping mod 2^32, then integer division), and
lcnt + hcnt equals that totalPeriod. -/
theorem timing_total_period (systemClockHz targetBusHz : Nat)
    (h1 : 0 < targetBusHz) (h2 : systemClockHz < 4294967296)
    (h3 : targetBusHz < 4294967296) :
    period_SCL systemClockHz targetBusHz
        = ((systemClockHz + targetBusHz / 2) % 4294967296) / targetBusHz ∧
    lcnt systemClockHz targetBusHz + hcnt systemClockHz targetBusHz
        = period_SCL systemClockHz targetBusHz := by
  refine ⟨rfl, ?_⟩
  have hp : period_SCL systemClockHz targetBusHz < 4294967296 := by
    have hmod : (systemClockHz + targetBusHz / 2) % 4294967296 < 4294967296 :=
      Nat.mod_lt _ (by omega)
    exact lt_of_le_of_lt (Nat.div_le_self _ _) hmod
  unfold hcnt
  unfold lcnt
  generalize period_SCL systemClockHz targetBusHz = p at hp ⊢
  have hl : p * 3 % 4294967296 / 5 ≤ p := by
    rcases Nat.lt_or_ge (p * 3) 4294967296 with h | h
    · rw [Nat.mod_eq_of_lt h]
      omega
    · have hb : p * 3 % 4294967296 < 4294967296 := Nat.mod_lt _ (by omega)
      omega
  generalize p * 3 % 4294967296 / 5 = l at hl ⊢
  omega

theorem timing_total_period_witness :
    period_SCL 125000000 400000
        = ((125000000 + 400000 / 2) % 4294967296) / 400000 ∧
    lcnt 125000000 400000 + hcnt 125000000 400000 = period_SCL 125000000 400000 :=
  timing_total_period 125000000 400000 (by decide) (by decide) (by decide)

/-- C6: at systemClockHz = 125000000 and targetBusHz = 400000 the programmed
low period (187 cycles) is strictly greater than the high period (126
cycles), and with the programmed spike-suppression count of 11 cycles,
lcnt >= spklen + 7 and hcnt >= spklen + 5. -/
theorem timing_fast_mode_values :
    regAfter CfgReg.fs_scl_lcnt 0 (I2C_Initialize 125000000 400000) = 187 ∧
    regAfter CfgReg.fs_scl_hcnt 0 (I2C_Initialize 125000000 400000) = 126 ∧
    187 > 126 ∧
    regAfter CfgReg.fs_spklen 0 (I2C_Initialize 125000000 400000)
        = CLK_SYS_88NS_IN_CYCLES ∧
    187 ≥ CLK_SYS_88NS_IN_CYCLES + 7 ∧
    126 ≥ CLK_SYS_88NS_IN_CYCLES + 5 := by decide

/-- C7 counterexample: the spike-suppression count programmed by
`I2C_Initialize` is the same (11) at systemClockHz = 125 MHz and at
systemClockHz = 250 MHz, and at 250 MHz it differs from the value a 50 ns
constant converted to cycles with rounding up would give (13); so the
programmed value is a constant independent of systemClockHz, not derived
from it. -/
theorem fs_spklen_not_derived :
    regAfter CfgReg.fs_spklen 0 (I2C_Initialize 125000000 400000)
        = regAfter CfgReg.fs_spklen 0 (I2C_Initialize 250000000 400000) ∧
    regAfter CfgReg.fs_spklen 0 (I2C_Initialize 250000000 400000)
        ≠ (50 * 250000000 + 999999999) / 1000000000 := by decide

/-- C7 amended: the spike-suppression count programmed by `I2C_Initialize`
is the fixed constant CLK_SYS_88NS_IN_CYCLES = 11 (88 ns at the default
125 MHz clk_sys), for every systemClockHz and baudrate. -/
theorem fs_spklen_constant (clockFreq baudrate v0 : Nat) :
    regAfter CfgReg.fs_spklen v0 (I2C_Initialize clockFreq baudrate)
        = CLK_SYS_88NS_IN_CYCLES := rfl

/-- C8: for every baudrate (and system clock), `I2C_Initialize` writes 0 to
the enable register first, writes every other configuration register while
the enable register holds 0, and writes 1 to the enable register last, so on
return the controller is enabled. -/
theorem init_disable_enable_protocol (clockFreq baudrate e0 : Nat) :
    (I2C_Initialize clockFreq baudrate).head? = some (CfgReg.enable, 0) ∧
    enableOffDuringCfg e0 (I2C_Initialize clockFreq baudrate) = true ∧
    regAfter CfgReg.enable e0 (I2C_Initialize clockFreq baudrate) = 1 ∧
    (I2C_Initialize clockFreq baudrate).getLast? = some (CfgReg.enable, 1) := by
  refine ⟨rfl, ?_, rfl, rfl⟩
  simp [I2C_Initialize, enableOffDuringCfg]

end DS1307
